import Mathlib

/-!
# Contacts component: state model and verified properties

A shallow embedding of `src/components/Contacts.js`.  The component keeps three
pieces of React state (`contacts`, `newContact`, `editingContactId`) and changes
them from event handlers.  Every handler that awaits a request is modelled as a
function of the state and of the outcome of that request, so both the success
continuation and the `catch` continuation are covered.  The `Traced` variant of
a handler pairs the next state with the requests the handler issued.  Each continuation is
also available on its own, parameterised by the values the handler closed over,
because the store updates are functional (`setContacts(prev => ...)`) and run
against whatever the store holds when the request settles.
-/

namespace Contacts

/-! ## Data model -/

/-- Values that `contact.id` can evaluate to: `undefined` when the record has no
such property, otherwise one of the JSON primitives.  Strict equality `===` on
these values coincides with equality of the constructors and their arguments. -/
inductive Ident where
  | undefined
  | null
  | bool (b : Bool)
  | num (n : Int)
  | str (s : String)
  deriving DecidableEq, Repr

/-- JavaScript truthiness, as used by the conditional operator in the render. -/
def Ident.truthy : Ident → Bool
  | .undefined => false
  | .null => false
  | .bool b => b
  | .num n => decide (n ≠ 0)
  | .str s => decide (s ≠ "")

/-- The form-in-progress: the object held in the `newContact` state. -/
structure DraftRecord where
  name : String
  phone : String
  email : String
  address : String
  deriving DecidableEq, Repr

/-- An element of the `contacts` array.  `rest` stands for any further own
properties a server record may carry; they are never read by the component but
survive the spread in the update handler. -/
structure Contact where
  id : Ident
  name : String
  phone : String
  email : String
  address : String
  rest : List (String × String)
  deriving DecidableEq, Repr

/-- The three `useState` cells of the component. -/
structure State where
  contacts : List Contact
  newContact : DraftRecord
  editingContactId : Ident
  deriving DecidableEq, Repr

/-- The object literal `{ name: "", phone: "", email: "", address: "" }`. -/
def emptyDraft : DraftRecord :=
  { name := "", phone := "", email := "", address := "" }

/-- State at mount: `useState([])`, the empty draft, `useState(null)`. -/
def initialState : State :=
  { contacts := [], newContact := emptyDraft, editingContactId := Ident.null }

/-- Settlement of an awaited request: the promise resolves with data or rejects
(the `catch` block runs). -/
inductive Outcome (α : Type) where
  | resolved (data : α)
  | rejected
  deriving DecidableEq, Repr

/-- The `name` attribute of the four inputs wired to `handleInputChange`. -/
inductive Field where
  | name
  | phone
  | email
  | address
  deriving DecidableEq, Repr

/-- Property read `newContact[field]`. -/
def DraftRecord.get (d : DraftRecord) : Field → String
  | .name => d.name
  | .phone => d.phone
  | .email => d.email
  | .address => d.address

/-- The draft part of a contact: its four text properties. -/
def Contact.fields (c : Contact) : DraftRecord :=
  { name := c.name, phone := c.phone, email := c.email, address := c.address }

/-- Identifiers of the store, in order. -/
def ids (cs : List Contact) : List Ident := cs.map Contact.id

/-! ## Handlers -/

/-- The loader of the effect: runs only for a truthy token; on success
`setContacts(response.data)`, on failure only logs. -/
def fetchContacts (token : String) (response : Outcome (List Contact)) (s : State) : State :=
  if token ≠ "" then
    match response with
    | .resolved data => { s with contacts := data }
    | .rejected => s
  else s

/-- The object `{ ...newContact, [e.target.name]: e.target.value }`. -/
def DraftRecord.set (d : DraftRecord) (field : Field) (value : String) : DraftRecord :=
  match field with
  | .name => { d with name := value }
  | .phone => { d with phone := value }
  | .email => { d with email := value }
  | .address => { d with address := value }

/-- The change handler `handleInputChange`. -/
def handleInputChange (field : Field) (value : String) (s : State) : State :=
  { s with newContact := s.newContact.set field value }

/-- The record `{ id: Date.now(), ...newContact }`; `now` is the clock reading. -/
def optimisticContact (now : Int) (newContact : DraftRecord) : Contact :=
  { id := Ident.num now, name := newContact.name, phone := newContact.phone,
    email := newContact.email, address := newContact.address, rest := [] }

/-- First store update of `handleAddContact`: `[...prevContacts, optimisticContact]`. -/
def addOptimistic (oc : Contact) (s : State) : State :=
  { s with contacts := s.contacts ++ [oc] }

/-- Success continuation of `handleAddContact`: map the entries whose id equals
the optimistic id to `response.data`, then reset the draft. -/
def addResolved (oc : Contact) (data : Contact) (s : State) : State :=
  { s with
    contacts := s.contacts.map (fun contact => if contact.id = oc.id then data else contact)
    newContact := emptyDraft }

/-- Failure continuation of `handleAddContact`: filter out the entries whose id
equals the optimistic id. -/
def addRejected (oc : Contact) (s : State) : State :=
  { s with contacts := s.contacts.filter (fun contact => decide (contact.id ≠ oc.id)) }

/-- The submit handler `handleAddContact`, run to completion with no other event
in between: optimistic append, then the branch selected by the response. -/
def handleAddContact (now : Int) (response : Outcome Contact) (s : State) : State :=
  let oc := optimisticContact now s.newContact
  let s1 := addOptimistic oc s
  match response with
  | .resolved data => addResolved oc data s1
  | .rejected => addRejected oc s1

/-- Success continuation of `handleDeleteContact`. -/
def deleteResolved (id : Ident) (s : State) : State :=
  { s with contacts := s.contacts.filter (fun contact => decide (contact.id ≠ id)) }

/-- The click handler `handleDeleteContact`. -/
def handleDeleteContact (id : Ident) (response : Outcome Unit) (s : State) : State :=
  match response with
  | .resolved _ => deleteResolved id s
  | .rejected => s

/-- The object `{ ...contact, ...newContact }`. -/
def mergeDraft (contact : Contact) (newContact : DraftRecord) : Contact :=
  { contact with
    name := newContact.name, phone := newContact.phone,
    email := newContact.email, address := newContact.address }

/-- Success continuation of `handleUpdateContact`, with the `editingContactId`
and `newContact` the handler closed over. -/
def updateResolved (editingContactId : Ident) (newContact : DraftRecord) (s : State) : State :=
  { contacts := s.contacts.map (fun contact =>
      if contact.id = editingContactId then mergeDraft contact newContact else contact)
    editingContactId := Ident.null
    newContact := emptyDraft }

/-- The submit handler `handleUpdateContact`. -/
def handleUpdateContact (response : Outcome Unit) (s : State) : State :=
  match response with
  | .resolved _ => updateResolved s.editingContactId s.newContact s
  | .rejected => s

/-- The click handler `handleEditContact`. -/
def handleEditContact (contact : Contact) (s : State) : State :=
  { s with
    editingContactId := contact.id
    newContact := { name := contact.name, phone := contact.phone,
                    email := contact.email, address := contact.address } }

/-! ## Render -/

/-- The two functions the form can have as `onSubmit`. -/
inductive SubmitHandler where
  | handleUpdateContact
  | handleAddContact
  deriving DecidableEq, Repr

/-- The attribute `onSubmit={editingContactId ? handleUpdateContact : handleAddContact}`. -/
def onSubmit (s : State) : SubmitHandler :=
  if s.editingContactId.truthy then SubmitHandler.handleUpdateContact
  else SubmitHandler.handleAddContact

/-- The heading `{editingContactId ? "Edit Contact" : "Add Contact"}`. -/
def heading (s : State) : String :=
  if s.editingContactId.truthy then "Edit Contact" else "Add Contact"

/-- The button label `{editingContactId ? "Update Contact" : "Add Contact"}`. -/
def buttonText (s : State) : String :=
  if s.editingContactId.truthy then "Update Contact" else "Add Contact"

/-! ## Requests issued by the handlers -/

/-- A call to the API collaborator made through `axios`.  Each constructor is one
of the four call sites of the component; `token` is the credential sent in the
`Authorization: Bearer` header, `id` the value interpolated into the path and
`body` the object sent as request body. -/
inductive Request where
  | getContacts (token : String)
  | addContact (body : DraftRecord) (token : String)
  | deleteContact (id : Ident) (token : String)
  | updateContact (id : Ident) (body : DraftRecord) (token : String)
  deriving DecidableEq, Repr

/-- What running a handler to completion produces: the next state and the
requests the handler issued, in order. -/
structure Traced where
  state : State
  requests : List Request
  deriving DecidableEq, Repr

/-- The effect body with its request: for a truthy token one
`axios.get("/api/contacts/getContacts")`, for a falsy token nothing. -/
def fetchContactsTraced (token : String) (response : Outcome (List Contact)) (s : State) :
    Traced :=
  { state := fetchContacts token response s
    requests := if token ≠ "" then [Request.getContacts token] else [] }

/-- The handler `handleInputChange` with its requests: its body is the single
`setNewContact` call, so it issues none. -/
def handleInputChangeTraced (field : Field) (value : String) (s : State) : Traced :=
  { state := handleInputChange field value s, requests := [] }

/-- The handler `handleAddContact` with its request: one
`axios.post("/api/contacts/addContact", newContact)`. -/
def handleAddContactTraced (token : String) (now : Int) (response : Outcome Contact)
    (s : State) : Traced :=
  { state := handleAddContact now response s
    requests := [Request.addContact s.newContact token] }

/-- The handler `handleDeleteContact` with its request: one `axios.delete` on the
path ending in the identifier. -/
def handleDeleteContactTraced (token : String) (id : Ident) (response : Outcome Unit)
    (s : State) : Traced :=
  { state := handleDeleteContact id response s
    requests := [Request.deleteContact id token] }

/-- The handler `handleUpdateContact` with its request: one `axios.put` on the
path ending in `editingContactId`, carrying `newContact`. -/
def handleUpdateContactTraced (token : String) (response : Outcome Unit) (s : State) :
    Traced :=
  { state := handleUpdateContact response s
    requests := [Request.updateContact s.editingContactId s.newContact token] }

/-- The handler `handleEditContact` with its requests: its body is the two calls
`setEditingContactId` and `setNewContact`, with no `axios` call and no `await`,
so it issues none. -/
def handleEditContactTraced (contact : Contact) (s : State) : Traced :=
  { state := handleEditContact contact s, requests := [] }

/-! ## Concrete inputs used in evaluations -/

/-- A persisted record. -/
def ann : Contact :=
  { id := Ident.num 7, name := "Ann", phone := "555-0101", email := "ann@example.com",
    address := "1 Elm St", rest := [] }

/-- A filled-in draft. -/
def calDraft : DraftRecord :=
  { name := "Cal", phone := "555-0103", email := "cal@example.com", address := "3 Fir St" }

/-- The optimistic entry of a submission of `calDraft` made at the clock reading
1700000000000 whose request has not settled yet. -/
def pending : Contact := optimisticContact 1700000000000 calDraft

/-- A server record for the draft `calDraft`. -/
def calSaved : Contact :=
  { id := Ident.num 8, name := "Cal", phone := "555-0103", email := "cal@example.com",
    address := "3 Fir St", rest := [("owner", "u1")] }

/-- A server record whose identifier is the number zero. -/
def zeroRecord : Contact :=
  { id := Ident.num 0, name := "Zed", phone := "555-0100", email := "zed@example.com",
    address := "0 Ash St", rest := [] }

/-- Create mode with the draft `calDraft` filled in, while an earlier submission
of the same draft, made at the clock reading 1700000000000, is still in flight:
the store holds its optimistic entry. -/
def collidingState : State :=
  { contacts := [pending], newContact := calDraft, editingContactId := Ident.null }

/-- Create mode, one persisted entry in the store, draft filled in. -/
def readyState : State :=
  { contacts := [ann], newContact := calDraft, editingContactId := Ident.null }

/-! ## Sequences of field edits -/

/-- A run of change events, each handled by `handleInputChange` on the state left
by the previous one. -/
def applyEdits (edits : List (Field × String)) (s : State) : State :=
  edits.foldl (fun st e => handleInputChange e.1 e.2 st) s

/-- The last value a sequence of edits sets for a field, if it sets the field at
all.  Stated from the property, independently of the handler. -/
def lastValue (field : Field) (edits : List (Field × String)) : Option String :=
  (edits.reverse.find? (fun e => decide (e.1 = field))).map Prod.snd

/-- A state in which the record `ann` is being edited with the draft `calDraft`. -/
def editingState : State :=
  { contacts := [ann, pending], newContact := calDraft, editingContactId := Ident.num 7 }

/-! ## Postconditions named by the properties -/

/-- Postcondition of a reconciled create: the store holds the server record
exactly once, holds no entry whose identifier is the clock reading used as the
temporary identifier, and the draft is empty. -/
def ReconciledOnce (now : Int) (data : Contact) (r : State) : Prop :=
  r.contacts.count data = 1 ∧ (∀ c ∈ r.contacts, c.id ≠ Ident.num now) ∧
    r.newContact = emptyDraft

instance (now : Int) (data : Contact) (r : State) : Decidable (ReconciledOnce now data r) := by
  unfold ReconciledOnce
  infer_instance

/-- Identifiers of the store are pairwise distinct. -/
def UniqueIds (cs : List Contact) : Prop := (ids cs).Nodup

instance (cs : List Contact) : Decidable (UniqueIds cs) := by
  unfold UniqueIds
  infer_instance

/-! ## Shared lemmas on the store updates -/

theorem map_replace_eq_self (l : List Contact) (t : Ident) (g : Contact → Contact)
    (h : ∀ c ∈ l, c.id ≠ t) :
    l.map (fun c => if c.id = t then g c else c) = l := by
  induction l with
  | nil => rfl
  | cons a l ih =>
    have ha : a.id ≠ t := h a (List.mem_cons_self a l)
    have hl : ∀ c ∈ l, c.id ≠ t := fun c hc => h c (List.mem_cons_of_mem a hc)
    simp [ha, ih hl]

theorem filter_ne_eq_self (l : List Contact) (t : Ident) (h : ∀ c ∈ l, c.id ≠ t) :
    l.filter (fun c => decide (c.id ≠ t)) = l := by
  apply List.filter_eq_self.mpr
  intro c hc
  simpa using h c hc

theorem ids_map_replace (l : List Contact) (t : Ident) (g : Contact → Contact)
    (hg : ∀ c, (g c).id = c.id) :
    ids (l.map (fun c => if c.id = t then g c else c)) = ids l := by
  induction l with
  | nil => rfl
  | cons a l ih =>
    simp only [ids, List.map_cons] at ih ⊢
    rw [ih]
    by_cases ha : a.id = t
    · simp [ha, hg]
    · simp [ha]

theorem optimisticContact_id (now : Int) (d : DraftRecord) :
    (optimisticContact now d).id = Ident.num now := rfl

theorem handleAddContact_resolved_contacts (now : Int) (data : Contact) (s : State)
    (hfresh : ∀ c ∈ s.contacts, c.id ≠ Ident.num now) :
    (handleAddContact now (Outcome.resolved data) s).contacts = s.contacts ++ [data] := by
  simp only [handleAddContact, addResolved, addOptimistic, optimisticContact_id, List.map_append,
    List.map_cons, List.map_nil, if_true]
  rw [map_replace_eq_self s.contacts (Ident.num now) (fun _ => data) hfresh]

/-- When no entry of the store carries the clock reading as identifier, the
failure branch of `handleAddContact` restores the whole state. -/
theorem handleAddContact_rejected_of_fresh (now : Int) (s : State)
    (hfresh : ∀ c ∈ s.contacts, c.id ≠ Ident.num now) :
    handleAddContact now Outcome.rejected s = s := by
  have h : (s.contacts ++ [optimisticContact now s.newContact]).filter
      (fun c => decide (c.id ≠ Ident.num now)) = s.contacts := by
    rw [List.filter_append, filter_ne_eq_self s.contacts (Ident.num now) hfresh]
    simp [optimisticContact_id]
  simp only [handleAddContact, addRejected, addOptimistic, optimisticContact_id]
  rw [h]

/-! ## Preservation of pairwise distinct identifiers -/

theorem deleteResolved_uniqueIds (id : Ident) (s : State) (h : UniqueIds s.contacts) :
    UniqueIds (deleteResolved id s).contacts := by
  unfold UniqueIds ids at *
  exact List.Nodup.sublist (List.Sublist.map _ (List.filter_sublist _)) h

theorem addRejected_uniqueIds (oc : Contact) (s : State) (h : UniqueIds s.contacts) :
    UniqueIds (addRejected oc s).contacts := by
  unfold UniqueIds ids at *
  exact List.Nodup.sublist (List.Sublist.map _ (List.filter_sublist _)) h

theorem updateResolved_ids (id : Ident) (d : DraftRecord) (s : State) :
    ids (updateResolved id d s).contacts = ids s.contacts :=
  ids_map_replace s.contacts id (fun c => mergeDraft c d) (fun _ => rfl)

theorem updateResolved_uniqueIds (id : Ident) (d : DraftRecord) (s : State)
    (h : UniqueIds s.contacts) : UniqueIds (updateResolved id d s).contacts := by
  unfold UniqueIds at *
  rw [updateResolved_ids]
  exact h

theorem addOptimistic_uniqueIds_of_fresh (oc : Contact) (s : State) (h : UniqueIds s.contacts)
    (hfresh : ∀ c ∈ s.contacts, c.id ≠ oc.id) : UniqueIds (addOptimistic oc s).contacts := by
  unfold UniqueIds ids at *
  simp only [addOptimistic, List.map_append, List.map_cons, List.map_nil]
  rw [List.nodup_append]
  refine ⟨h, List.nodup_singleton _, ?_⟩
  intro a ha hb
  rw [List.mem_singleton] at hb
  rcases List.mem_map.mp ha with ⟨c, hc, rfl⟩
  exact hfresh c hc hb

theorem addResolved_uniqueIds_of_fresh (oc data : Contact) (s : State) (h : UniqueIds s.contacts)
    (hdata : ∀ c ∈ s.contacts, c.id ≠ oc.id → c.id ≠ data.id) :
    UniqueIds (addResolved oc data s).contacts := by
  unfold UniqueIds ids at *
  simp only [addResolved]
  generalize s.contacts = l at h hdata
  induction l with
  | nil => simp
  | cons a l ih =>
    rw [List.map_cons, List.nodup_cons] at h
    have hl : ∀ c ∈ l, c.id ≠ oc.id → c.id ≠ data.id :=
      fun c hc => hdata c (List.mem_cons_of_mem a hc)
    have ih1 := ih h.2 hl
    simp only [List.map_cons, List.nodup_cons]
    refine ⟨?_, ih1⟩
    intro hmem
    rcases List.mem_map.mp hmem with ⟨b, hb, hbeq⟩
    rcases List.mem_map.mp hb with ⟨c, hc, rfl⟩
    have hca : c.id ≠ a.id := fun e => h.1 (List.mem_map.mpr ⟨c, hc, e⟩)
    by_cases ha : a.id = oc.id
    · by_cases hco : c.id = oc.id
      · exact hca (hco.trans ha.symm)
      · simp only [ha, hco, if_true, if_false] at hbeq
        exact hl c hc hco hbeq
    · by_cases hco : c.id = oc.id
      · simp only [ha, hco, if_true, if_false] at hbeq
        exact hdata a (List.mem_cons_self a l) ha hbeq.symm
      · simp only [ha, hco, if_false] at hbeq
        exact hca hbeq

/-! ## Create: rollback, reconciliation, identifier uniqueness -/

/-- C1: evaluation of the create rollback when the form is submitted a second
time at the same clock reading as a submission still in flight.  The snapshot
before the create holds the optimistic entry of the first submission; after the
optimistic append and the failure branch the store is empty, so it is not the
snapshot, while the draft is kept. -/
theorem handleAddContact_rejected_collision :
    collidingState.contacts = [pending] ∧
    (handleAddContact 1700000000000 Outcome.rejected collidingState).contacts = [] ∧
    (handleAddContact 1700000000000 Outcome.rejected collidingState).contacts
      ≠ collidingState.contacts ∧
    (handleAddContact 1700000000000 Outcome.rejected collidingState).newContact
      = collidingState.newContact := by
  decide

/-- C2: evaluation of the create reconciliation when the form is submitted a
second time at the same clock reading as a submission still in flight.  The
success branch replaces both optimistic entries by the server record, so the
store holds that record twice instead of exactly once. -/
theorem handleAddContact_resolved_collision :
    (handleAddContact 1700000000000 (Outcome.resolved calSaved) collidingState).contacts
      = [calSaved, calSaved] ∧
    (handleAddContact 1700000000000 (Outcome.resolved calSaved) collidingState).contacts.count
      calSaved = 2 ∧
    ¬ ReconciledOnce 1700000000000 calSaved
        (handleAddContact 1700000000000 (Outcome.resolved calSaved) collidingState) := by
  decide

/-- When the store holds neither the server record nor an entry whose identifier
is the clock reading, and the server record carries another identifier than the
clock reading, the optimistic append followed by the success branch of
`handleAddContact` leaves the server record in the store exactly once, no entry
with the temporary identifier, and the empty draft. -/
theorem handleAddContact_resolved_of_fresh (now : Int) (data : Contact) (s : State)
    (hfresh : ∀ c ∈ s.contacts, c.id ≠ Ident.num now)
    (hnew : data ∉ s.contacts)
    (hid : data.id ≠ Ident.num now) :
    ReconciledOnce now data (handleAddContact now (Outcome.resolved data) s) := by
  refine ⟨?_, ?_, rfl⟩
  · rw [handleAddContact_resolved_contacts now data s hfresh, List.count_append,
      List.count_eq_zero_of_not_mem hnew]
    simp
  · rw [handleAddContact_resolved_contacts now data s hfresh]
    intro c hc
    rcases List.mem_append.mp hc with h | h
    · exact hfresh c h
    · rw [List.mem_singleton] at h
      rw [h]
      exact hid

/-- C3: evaluation of the optimistic insert when the form is submitted a second
time at the same clock reading as a submission still in flight.  The store has
pairwise distinct identifiers before the insert and not after it: two entries
carry the temporary identifier. -/
theorem addOptimistic_collision_breaks_uniqueIds :
    UniqueIds collidingState.contacts ∧
    ¬ UniqueIds (addOptimistic (optimisticContact 1700000000000 collidingState.newContact)
        collidingState).contacts ∧
    (ids (addOptimistic (optimisticContact 1700000000000 collidingState.newContact)
        collidingState).contacts).count (Ident.num 1700000000000) = 2 := by
  decide

/-! ## Edit mode -/

/-- C6: evaluation of edit-mode entry at a record whose identifier is the number
zero.  After `handleEditContact` the editing target is that identifier, not null,
yet the form still submits to `handleAddContact` and shows the create texts. -/
theorem handleEditContact_zero_id_stays_in_create_mode :
    (handleEditContact zeroRecord readyState).editingContactId = Ident.num 0 ∧
    (handleEditContact zeroRecord readyState).editingContactId ≠ Ident.null ∧
    onSubmit (handleEditContact zeroRecord readyState) = SubmitHandler.handleAddContact ∧
    heading (handleEditContact zeroRecord readyState) = "Add Contact" ∧
    buttonText (handleEditContact zeroRecord readyState) = "Add Contact" := by
  decide

/-- For a record with a truthy identifier, `handleEditContact` does put the form
in edit mode. -/
theorem handleEditContact_truthy_id_edit_mode (contact : Contact) (s : State)
    (h : contact.id.truthy = true) :
    onSubmit (handleEditContact contact s) = SubmitHandler.handleUpdateContact ∧
    heading (handleEditContact contact s) = "Edit Contact" ∧
    buttonText (handleEditContact contact s) = "Update Contact" := by
  simp [onSubmit, heading, buttonText, handleEditContact, h]

/-- Every handler that awaits a request issues exactly one, carrying the token;
the loader issues one exactly when the token is truthy. -/
theorem awaiting_handlers_issue_one_request (token : String) (now : Int) (id : Ident)
    (r1 : Outcome Contact) (r2 : Outcome Unit) (r3 : Outcome (List Contact)) (s : State) :
    (handleAddContactTraced token now r1 s).requests
      = [Request.addContact s.newContact token] ∧
    (handleDeleteContactTraced token id r2 s).requests = [Request.deleteContact id token] ∧
    (handleUpdateContactTraced token r2 s).requests
      = [Request.updateContact s.editingContactId s.newContact token] ∧
    ((fetchContactsTraced token r3 s).requests = [] ↔ token = "") := by
  refine ⟨rfl, rfl, rfl, ?_⟩
  by_cases h : token = "" <;> simp [fetchContactsTraced, h]

/-- C7: for every record and every prior state, running `handleEditContact`
issues no request, and afterwards the draft holds exactly the four text fields
of the record, the editing target is the identifier of the record, and the
store is the store of the prior state. -/
theorem handleEditContact_spec (contact : Contact) (s : State) :
    (handleEditContactTraced contact s).requests = [] ∧
    (handleEditContactTraced contact s).state = handleEditContact contact s ∧
    (handleEditContact contact s).newContact = contact.fields ∧
    (handleEditContact contact s).newContact.name = contact.name ∧
    (handleEditContact contact s).newContact.phone = contact.phone ∧
    (handleEditContact contact s).newContact.email = contact.email ∧
    (handleEditContact contact s).newContact.address = contact.address ∧
    (handleEditContact contact s).editingContactId = contact.id ∧
    (handleEditContact contact s).contacts = s.contacts :=
  ⟨rfl, rfl, rfl, rfl, rfl, rfl, rfl, rfl, rfl⟩

/-! ## Update and delete -/

/-- C4: for every store holding a record whose identifier is the editing target,
after the success branch of `handleUpdateContact` the identifiers of the store
are what they were, position by position, an entry with the target identifier
is still there, every entry with that identifier has the name, phone, email and
address of the draft, the editing target is null and the draft is empty. -/
theorem handleUpdateContact_resolved_spec (s : State)
    (h : ∃ c ∈ s.contacts, c.id = s.editingContactId) :
    ids (handleUpdateContact (Outcome.resolved ()) s).contacts = ids s.contacts ∧
    (∃ c ∈ (handleUpdateContact (Outcome.resolved ()) s).contacts,
      c.id = s.editingContactId) ∧
    (∀ c ∈ (handleUpdateContact (Outcome.resolved ()) s).contacts,
      c.id = s.editingContactId →
        c.name = s.newContact.name ∧ c.phone = s.newContact.phone ∧
        c.email = s.newContact.email ∧ c.address = s.newContact.address) ∧
    (handleUpdateContact (Outcome.resolved ()) s).editingContactId = Ident.null ∧
    (handleUpdateContact (Outcome.resolved ()) s).newContact = emptyDraft := by
  have hids := updateResolved_ids s.editingContactId s.newContact s
  refine ⟨hids, ?_, ?_, rfl, rfl⟩
  · rcases h with ⟨c, hc, hcid⟩
    have hmem : c.id ∈ ids (updateResolved s.editingContactId s.newContact s).contacts := by
      rw [hids]
      exact List.mem_map.mpr ⟨c, hc, rfl⟩
    rcases List.mem_map.mp hmem with ⟨b, hb, hbid⟩
    exact ⟨b, hb, hbid.trans hcid⟩
  · intro c hc hcid
    simp only [handleUpdateContact, updateResolved] at hc
    rcases List.mem_map.mp hc with ⟨a, _, rfl⟩
    by_cases ha : a.id = s.editingContactId
    · simp [ha, mergeDraft]
    · rw [if_neg ha] at hcid
      exact absurd hcid ha

/-- Witness for C4: the record with identifier 7 is being edited. -/
theorem handleUpdateContact_resolved_spec_witness :
    (∃ c ∈ editingState.contacts, c.id = editingState.editingContactId) ∧
    (handleUpdateContact (Outcome.resolved ()) editingState).contacts =
      [{ ann with name := "Cal", phone := "555-0103", email := "cal@example.com",
                  address := "3 Fir St" }, pending] ∧
    (handleUpdateContact (Outcome.resolved ()) editingState).editingContactId = Ident.null :=
  ⟨by decide, by decide,
    (handleUpdateContact_resolved_spec editingState (by decide)).2.2.2.1⟩

/-- C5: for every store and identifier, after the success branch of
`handleDeleteContact` no entry of the store has that identifier, the store is a
sublist of the original one (same relative order, entries untouched), every
record with another identifier occurs as often as it did before, and the draft
and the editing target are untouched. -/
theorem handleDeleteContact_resolved_spec (id : Ident) (s : State) :
    (∀ c ∈ (handleDeleteContact id (Outcome.resolved ()) s).contacts, c.id ≠ id) ∧
    List.Sublist (handleDeleteContact id (Outcome.resolved ()) s).contacts s.contacts ∧
    (∀ c : Contact, c.id ≠ id →
      (handleDeleteContact id (Outcome.resolved ()) s).contacts.count c = s.contacts.count c) ∧
    (handleDeleteContact id (Outcome.resolved ()) s).newContact = s.newContact ∧
    (handleDeleteContact id (Outcome.resolved ()) s).editingContactId = s.editingContactId := by
  refine ⟨?_, ?_, ?_, rfl, rfl⟩
  · intro c hc
    simp only [handleDeleteContact, deleteResolved, List.mem_filter] at hc
    simpa using hc.2
  · exact List.filter_sublist _
  · intro c hc
    simp only [handleDeleteContact, deleteResolved]
    exact List.count_filter (by simpa using hc)

/-! ## Draft editing -/

theorem applyEdits_append (es : List (Field × String)) (e : Field × String) (s : State) :
    applyEdits (es ++ [e]) s = handleInputChange e.1 e.2 (applyEdits es s) := by
  simp [applyEdits, List.foldl_append]

theorem lastValue_append (field : Field) (es : List (Field × String)) (e : Field × String) :
    lastValue field (es ++ [e]) = if e.1 = field then some e.2 else lastValue field es := by
  by_cases h : e.1 = field
  · simp [lastValue, List.find?_cons, h]
  · simp [lastValue, List.find?_cons, h]

theorem get_set (d : DraftRecord) (field g : Field) (value : String) :
    (d.set field value).get g = if g = field then value else d.get g := by
  cases field <;> cases g <;> simp [DraftRecord.set, DraftRecord.get]

/-- C8: for every initial state and every finite sequence of field edits handled
one after another by `handleInputChange`, each field of the resulting draft is
the last value the sequence set for it, or its initial value when the sequence
never set it, and the store and the editing target are untouched; a single edit
sets the named field and leaves the other three as they were. -/
theorem applyEdits_last_write_wins (edits : List (Field × String)) (s : State) :
    (∀ field : Field, (applyEdits edits s).newContact.get field
      = (lastValue field edits).getD (s.newContact.get field)) ∧
    (applyEdits edits s).contacts = s.contacts ∧
    (applyEdits edits s).editingContactId = s.editingContactId ∧
    (∀ (field g : Field) (value : String),
      (handleInputChange field value s).newContact.get g
        = if g = field then value else s.newContact.get g) := by
  refine ⟨?_, ?_, ?_, ?_⟩
  · intro field
    induction edits using List.reverseRecOn with
    | nil => rfl
    | append_singleton es e ih =>
      rw [applyEdits_append, lastValue_append]
      simp only [handleInputChange, get_set]
      by_cases h : e.1 = field
      · simp [h]
      · have h2 : ¬ field = e.1 := fun x => h x.symm
        simp [h, h2, ih]
  · induction edits using List.reverseRecOn with
    | nil => rfl
    | append_singleton es e ih => rw [applyEdits_append]; exact ih
  · induction edits using List.reverseRecOn with
    | nil => rfl
    | append_singleton es e ih => rw [applyEdits_append]; exact ih
  · intro field g value
    exact get_set s.newContact field g value

/-! ## Failure branches and list shape -/

/-- C9: for every state, the failure branch of `handleUpdateContact` leaves the
whole state as it was (store, editing target and draft), and so do the failure
branch of `handleDeleteContact` and a failed list request. -/
theorem rejected_requests_leave_state (s : State) (id : Ident) (token : String) :
    handleUpdateContact Outcome.rejected s = s ∧
    handleDeleteContact id Outcome.rejected s = s ∧
    fetchContacts token Outcome.rejected s = s := by
  refine ⟨rfl, rfl, ?_⟩
  unfold fetchContacts
  split <;> rfl

/-- C10: for every state, the success branch of `handleUpdateContact` keeps the
length of the store and leaves every entry whose identifier differs from the
editing target where it was, unchanged, so a store without the target is left
as it was; the success map of `handleAddContact` likewise keeps the length and
leaves every entry whose identifier differs from the temporary one in place. -/
theorem success_maps_keep_shape (s : State) (now : Int) (d : DraftRecord) (data : Contact) :
    (handleUpdateContact (Outcome.resolved ()) s).contacts.length = s.contacts.length ∧
    (∀ (i : Nat) (c : Contact), s.contacts[i]? = some c → c.id ≠ s.editingContactId →
      (handleUpdateContact (Outcome.resolved ()) s).contacts[i]? = some c) ∧
    ((∀ c ∈ s.contacts, c.id ≠ s.editingContactId) →
      (handleUpdateContact (Outcome.resolved ()) s).contacts = s.contacts) ∧
    (addResolved (optimisticContact now d) data s).contacts.length = s.contacts.length ∧
    (∀ (i : Nat) (c : Contact), s.contacts[i]? = some c → c.id ≠ Ident.num now →
      (addResolved (optimisticContact now d) data s).contacts[i]? = some c) := by
  refine ⟨?_, ?_, ?_, ?_, ?_⟩
  · simp [handleUpdateContact, updateResolved]
  · intro i c hi hc
    simp [handleUpdateContact, updateResolved, List.getElem?_map, hi, hc]
  · intro h
    exact map_replace_eq_self s.contacts s.editingContactId (fun c => mergeDraft c s.newContact) h
  · simp [addResolved]
  · intro i c hi hc
    simp [addResolved, optimisticContact_id, List.getElem?_map, hi, hc]

end Contacts
